import Mathlib

/-!
Verification of the dchook request-authentication and abuse-control core.

The Go sources are embedded shallowly:

* `time.Time` and `time.Duration` are modelled as `Int` nanoseconds since the
  Unix epoch (Go durations are `int64` nanoseconds; `time.UnixMicro ts` is the
  instant `1000 * ts` nanoseconds).
* Go maps are modelled as total functions returning the zero value (`0`, `[]`,
  `none`) for absent keys; `delete` stores the zero value.
* Each stateful method of `RateLimiter` becomes a pure function from the
  receiver state (plus the current instant `now`, Go's `time.Now()`) to the
  result and the updated state.
* Go byte slices and Go strings used as raw bytes become `List Nat`
  (each entry one byte); Go strings that are only compared or concatenated
  stay `String`.
-/

/-- Pointwise map update, modelling a Go map write `m[k] = v`. -/
def upd {α β : Type} [DecidableEq α] (m : α → β) (k : α) (v : β) : α → β :=
  fun k' => if k' = k then v else m k'

@[simp] theorem upd_same {α β : Type} [DecidableEq α] (m : α → β) (k : α) (v : β) :
    upd m k v k = v := by simp [upd]

@[simp] theorem upd_other {α β : Type} [DecidableEq α] (m : α → β) (k : α) (v : β)
    (k' : α) (h : k' ≠ k) : upd m k v k' = m k' := by simp [upd, h]

/-- State of the Go `RateLimiter` struct (internal/dchook rate limiter):
success history, failure counters, ban records, seen timestamps, and the five
configured tunables. -/
structure RateLimiter where
  successRequests : String → List Int
  failedRequests : String → Int
  bannedUntil : String → Option Int
  seenTimestamps : Int → Option Int
  successLimit : Int
  successWindow : Int
  failLimit : Int
  banDuration : Int
  replayWindow : Int

/-- Go `NewRateLimiter`: all maps empty, tunables as given. -/
def NewRateLimiter (successLimit successWindow failLimit banDuration replayWindow : Int) :
    RateLimiter :=
  { successRequests := fun _ => []
    failedRequests := fun _ => 0
    bannedUntil := fun _ => none
    seenTimestamps := fun _ => none
    successLimit := successLimit
    successWindow := successWindow
    failLimit := failLimit
    banDuration := banDuration
    replayWindow := replayWindow }

/-- Go `(*RateLimiter).IsBanned`: true iff a ban record exists with
`now < banTime`; an expired record is deleted together with the failure
counter as a side effect of the read. -/
def IsBanned (rl : RateLimiter) (now : Int) (ip : String) : Bool × RateLimiter :=
  match rl.bannedUntil ip with
  | some banTime =>
    if now < banTime then (true, rl)
    else
      (false, { rl with bannedUntil := upd rl.bannedUntil ip none
                        failedRequests := upd rl.failedRequests ip 0 })
  | none => (false, rl)

/-- Five minutes in nanoseconds (`5 * time.Minute`). -/
def fiveMinutes : Int := 300000000000

/-- One minute in nanoseconds (`1 * time.Minute`). -/
def oneMinute : Int := 60000000000

/-- Go `(*RateLimiter).CheckReplay`: rejects timestamps outside
`[now - 5min, now + 1min]` and timestamps already seen; otherwise prunes
entries recorded before `now - replayWindow`, records the timestamp, and
accepts.  The argument is int64 microseconds, so the instant it denotes is
`1000 * timestamp` nanoseconds. -/
def CheckReplay (rl : RateLimiter) (now : Int) (timestamp : Int) : Bool × RateLimiter :=
  let requestTime := 1000 * timestamp
  if requestTime < now - fiveMinutes || requestTime > now + oneMinute then
    (false, rl)
  else
    match rl.seenTimestamps timestamp with
    | some _ => (false, rl)
    | none =>
      let cutoff := now - rl.replayWindow
      let pruned : Int → Option Int := fun ts =>
        match rl.seenTimestamps ts with
        | some recordedAt => if recordedAt < cutoff then none else some recordedAt
        | none => none
      (true, { rl with seenTimestamps := upd pruned timestamp (some now) })

/-- Go `(*RateLimiter).RecordSuccess`: prune the identity's history to entries
after `now - successWindow`; if the pruned count is at or above the limit,
reject without mutating anything; otherwise store pruned history plus `now`,
clear the failure counter, and accept. -/
def RecordSuccess (rl : RateLimiter) (now : Int) (ip : String) : Bool × RateLimiter :=
  let cutoff := now - rl.successWindow
  let recent := (rl.successRequests ip).filter (fun t => cutoff < t)
  if (recent.length : Int) ≥ rl.successLimit then (false, rl)
  else
    (true, { rl with successRequests := upd rl.successRequests ip (recent ++ [now])
                     failedRequests := upd rl.failedRequests ip 0 })

/-- Go `(*RateLimiter).RecordFailure`: increment the counter; once it reaches
`failLimit` the ban record is (re)set to `now + banDuration`. -/
def RecordFailure (rl : RateLimiter) (now : Int) (ip : String) : RateLimiter :=
  let newCount := rl.failedRequests ip + 1
  let rl' := { rl with failedRequests := upd rl.failedRequests ip newCount }
  if newCount ≥ rl.failLimit then
    { rl' with bannedUntil := upd rl'.bannedUntil ip (some (now + rl.banDuration)) }
  else rl'

/-- A sequence of `RecordFailure` calls for one identity at the given instants. -/
def recordFailures (rl : RateLimiter) (ts : List Int) (ip : String) : RateLimiter :=
  ts.foldl (fun s t => RecordFailure s t ip) rl

/-- A sequence of `RecordSuccess` calls for one identity at the given instants,
collecting the returned booleans in order. -/
def recordSuccesses (rl : RateLimiter) (ts : List Int) (ip : String) :
    List Bool × RateLimiter :=
  match ts with
  | [] => ([], rl)
  | t :: rest =>
    let r := RecordSuccess rl t ip
    let rs := recordSuccesses r.2 rest ip
    (r.1 :: rs.1, rs.2)

/-- Tail of Go `strings.SplitN(s, ":", 2)`: scan for the first colon,
accumulating the prefix in reverse. -/
def splitColonAux : List Char → List Char → List String
  | [], acc => [String.mk acc.reverse]
  | c :: rest, acc =>
    if c = ':' then [String.mk acc.reverse, String.mk rest]
    else splitColonAux rest (c :: acc)

/-- Go `strings.SplitN(s, ":", 2)`: one element when `s` has no colon,
otherwise the part before the first colon and everything after it. -/
def splitColon (s : String) : List String := splitColonAux s.data []

/-- Go `strings.TrimPrefix(s, "v")`: drop one leading `v` when present. -/
def stripV (s : String) : String :=
  match s.data with
  | 'v' :: rest => String.mk rest
  | _ => s

/-- Tail of Go `strings.Split(s, ".")`. -/
def splitDotAux : List Char → List Char → List String
  | [], acc => [String.mk acc.reverse]
  | c :: rest, acc =>
    if c = '.' then String.mk acc.reverse :: splitDotAux rest []
    else splitDotAux rest (c :: acc)

/-- Go `strings.Split(s, ".")`. -/
def splitDot (s : String) : List String := splitDotAux s.data []

/-- Decimal digit value of a character, `none` for non-digits. -/
def digitVal (c : Char) : Option Nat :=
  if '0' ≤ c ∧ c ≤ '9' then some (c.toNat - 48) else none

/-- Accumulating decimal parse over a digit run; fails on any non-digit. -/
def parseDigitsAux : List Char → Nat → Option Nat
  | [], acc => some acc
  | c :: rest, acc =>
    match digitVal c with
    | some d => parseDigitsAux rest (acc * 10 + d)
    | none => none

/-- Parse a non-empty all-digit string to its value. -/
def parseDigits : List Char → Option Nat
  | [] => none
  | l => parseDigitsAux l 0

/-- Go `strconv.Atoi` / `strconv.ParseInt(s, 10, 64)` on a 64-bit platform:
optional sign, non-empty digit run, failure on any syntax error or on values
outside the int64 range. -/
def goAtoi (s : String) : Option Int :=
  match s.data with
  | '+' :: rest =>
    (parseDigits rest).bind fun n =>
      if n ≤ 9223372036854775807 then some (n : Int) else none
  | '-' :: rest =>
    (parseDigits rest).bind fun n =>
      if n ≤ 9223372036854775808 then some (-(n : Int)) else none
  | l =>
    (parseDigits l).bind fun n =>
      if n ≤ 9223372036854775807 then some (n : Int) else none

/-- Go `IsVersionCompatible` (internal/dchook): `"dev"` always passes; both
versions must split (after stripping one leading `v`) into at least two
dot-separated integer segments with equal major and minor; when the two
original version strings are textually identical the commits must match too. -/
def IsVersionCompatible (clientVer serverVer clientCommit serverCommit : String) : Bool :=
  if clientVer == "dev" || serverVer == "dev" then true
  else
    match splitDot (stripV clientVer), splitDot (stripV serverVer) with
    | c0 :: c1 :: _, s0 :: s1 :: _ =>
      match goAtoi c0, goAtoi c1, goAtoi s0, goAtoi s1 with
      | some clientMajor, some clientMinor, some serverMajor, some serverMinor =>
        if clientMajor != serverMajor || clientMinor != serverMinor then false
        else if clientVer == serverVer && clientCommit != serverCommit then false
        else true
      | _, _, _, _ => false
    | _, _ => false

/-- One step of Go's conversion `string(data)` / `for range` loop
(`unicode/utf8.DecodeRune`): decode one rune from a lead byte and the
following bytes, returning the rune and the not-yet-consumed bytes; any
invalid or truncated sequence (shortest-form, surrogate and max-scalar
checks as in Go) yields U+FFFD and consumes only the lead byte. -/
def utf8DecodeOne (b : Nat) (rest : List Nat) : Nat × List Nat :=
  if b < 0x80 then (b, rest)
  else if b < 0xC2 then (0xFFFD, rest)
  else if b < 0xE0 then
    match rest with
    | b1 :: rest1 =>
      if 0x80 ≤ b1 ∧ b1 < 0xC0 then ((b - 0xC0) * 64 + (b1 - 0x80), rest1)
      else (0xFFFD, b1 :: rest1)
    | [] => (0xFFFD, [])
  else if b < 0xF0 then
    match rest with
    | b1 :: b2 :: rest2 =>
      if (if b = 0xE0 then 0xA0 ≤ b1 ∧ b1 < 0xC0
          else if b = 0xED then 0x80 ≤ b1 ∧ b1 < 0xA0
          else 0x80 ≤ b1 ∧ b1 < 0xC0) ∧ 0x80 ≤ b2 ∧ b2 < 0xC0 then
        ((b - 0xE0) * 4096 + (b1 - 0x80) * 64 + (b2 - 0x80), rest2)
      else (0xFFFD, b1 :: b2 :: rest2)
    | short => (0xFFFD, short)
  else if b < 0xF5 then
    match rest with
    | b1 :: b2 :: b3 :: rest3 =>
      if (if b = 0xF0 then 0x90 ≤ b1 ∧ b1 < 0xC0
          else if b = 0xF4 then 0x80 ≤ b1 ∧ b1 < 0x90
          else 0x80 ≤ b1 ∧ b1 < 0xC0) ∧ 0x80 ≤ b2 ∧ b2 < 0xC0 ∧
          0x80 ≤ b3 ∧ b3 < 0xC0 then
        ((b - 0xF0) * 262144 + (b1 - 0x80) * 4096 + (b2 - 0x80) * 64 + (b3 - 0x80),
          rest3)
      else (0xFFFD, b1 :: b2 :: b3 :: rest3)
    | short => (0xFFFD, short)
  else (0xFFFD, rest)

/-- Iterate `utf8DecodeOne` over the bytes.  The fuel argument only serves
termination and is never exhausted when it starts at the byte count, since
every step consumes at least the lead byte. -/
def utf8DecodeAux : Nat → List Nat → List Nat
  | 0, _ => []
  | _, [] => []
  | fuel + 1, b :: rest =>
    (utf8DecodeOne b rest).1 :: utf8DecodeAux fuel (utf8DecodeOne b rest).2

/-- Go's conversion `string(data)` followed by `for range`: the sequence of
runes decoded from the bytes, with U+FFFD at each invalid position. -/
def utf8Decode (data : List Nat) : List Nat := utf8DecodeAux data.length data

/-- Go `IsPrintableUTF8` (internal/dchook): every decoded code point must not
be U+FFFD, not a control character below 0x20 other than tab, newline or
carriage return, and not DEL (0x7F). -/
def IsPrintableUTF8 (data : List Nat) : Bool :=
  (utf8Decode data).all fun r =>
    !(r == 0xFFFD || (r < 32 && r != 9 && r != 10 && r != 13) || r == 127)

/-- Standard UTF-8 encoding of one Unicode scalar value. -/
def utf8EncodeChar (c : Nat) : List Nat :=
  if c < 0x80 then [c]
  else if c < 0x800 then [0xC0 + c / 64, 0x80 + c % 64]
  else if c < 0x10000 then [0xE0 + c / 4096, 0x80 + c / 64 % 64, 0x80 + c % 64]
  else [0xF0 + c / 262144, 0x80 + c / 4096 % 64, 0x80 + c / 64 % 64, 0x80 + c % 64]

/-- Standard UTF-8 encoding of a sequence of Unicode scalar values; a byte
string is well-formed UTF-8 exactly when it is `utf8Encode` of scalars. -/
def utf8Encode (cs : List Nat) : List Nat := (cs.map utf8EncodeChar).flatten

/-- Unicode scalar values: code points excluding the surrogate range. -/
def IsScalar (c : Nat) : Prop := c < 0xD800 ∨ (0xE000 ≤ c ∧ c < 0x110000)

instance (c : Nat) : Decidable (IsScalar c) := by unfold IsScalar; infer_instance

/-- Truncation to a 32-bit word. -/
def w32 (n : Nat) : Nat := n % 4294967296

/-- Truncation to a 64-bit word. -/
def w64 (n : Nat) : Nat := n % 18446744073709551616

/-- Right rotation of a 32-bit word by `n` bits. -/
def rotr32 (n x : Nat) : Nat := x / 2 ^ n + x % 2 ^ n * 2 ^ (32 - n)

/-- Right rotation of a 64-bit word by `n` bits. -/
def rotr64 (n x : Nat) : Nat := x / 2 ^ n + x % 2 ^ n * 2 ^ (64 - n)

/-- Split a byte list into chunks of `n` bytes, with fuel for termination. -/
def chunkAux (n : Nat) : Nat → List Nat → List (List Nat)
  | 0, _ => []
  | _, [] => []
  | fuel + 1, l => l.take n :: chunkAux n fuel (l.drop n)

/-- Split a byte list into chunks of `n` bytes. -/
def chunk (n : Nat) (l : List Nat) : List (List Nat) := chunkAux n l.length l

/-- Big-endian bytes of `n`, `k` bytes wide. -/
def beBytes : Nat → Nat → List Nat
  | 0, _ => []
  | k + 1, n => beBytes k (n / 256) ++ [n % 256]

/-- Combine big-endian bytes into one word. -/
def beWord (bs : List Nat) : Nat := bs.foldl (fun acc b => acc * 256 + b) 0

/-- Merkle-Damgard padding shared by the SHA-2 family: append `0x80`, zero
bytes up to the length field, then the bit length over `lenBytes` bytes,
reaching a multiple of `blockSize`. -/
def shaPad (blockSize lenBytes : Nat) (msg : List Nat) : List Nat :=
  let padLen := (blockSize - (msg.length + 1 + lenBytes) % blockSize) % blockSize
  msg ++ [0x80] ++ List.replicate padLen 0 ++ beBytes lenBytes (8 * msg.length)

/-- SHA-256 round constants (FIPS 180-4). -/
def sha256K : List Nat := [
  1116352408, 1899447441, 3049323471, 3921009573, 961987163, 1508970993, 2453635748,
  2870763221, 3624381080, 310598401, 607225278, 1426881987, 1925078388, 2162078206,
  2614888103, 3248222580, 3835390401, 4022224774, 264347078, 604807628, 770255983,
  1249150122, 1555081692, 1996064986, 2554220882, 2821834349, 2952996808, 3210313671,
  3336571891, 3584528711, 113926993, 338241895, 666307205, 773529912, 1294757372,
  1396182291, 1695183700, 1986661051, 2177026350, 2456956037, 2730485921, 2820302411,
  3259730800, 3345764771, 3516065817, 3600352804, 4094571909, 275423344, 430227734,
  506948616, 659060556, 883997877, 958139571, 1322822218, 1537002063, 1747873779,
  1955562222, 2024104815, 2227730452, 2361852424, 2428436474, 2756734187, 3204031479,
  3329325298]

/-- SHA-256 initial hash value (FIPS 180-4). -/
def sha256IV : List Nat := [
  1779033703, 3144134277, 1013904242, 2773480762, 1359893119, 2600822924, 528734635,
  1541459225]

/-- SHA-512 round constants (FIPS 180-4). -/
def sha512K : List Nat := [
  4794697086780616226, 8158064640168781261, 13096744586834688815, 16840607885511220156,
  4131703408338449720, 6480981068601479193, 10538285296894168987, 12329834152419229976,
  15566598209576043074, 1334009975649890238, 2608012711638119052, 6128411473006802146,
  8268148722764581231, 9286055187155687089, 11230858885718282805, 13951009754708518548,
  16472876342353939154, 17275323862435702243, 1135362057144423861, 2597628984639134821,
  3308224258029322869, 5365058923640841347, 6679025012923562964, 8573033837759648693,
  10970295158949994411, 12119686244451234320, 12683024718118986047,
  13788192230050041572, 14330467153632333762, 15395433587784984357, 489312712824947311,
  1452737877330783856, 2861767655752347644, 3322285676063803686, 5560940570517711597,
  5996557281743188959, 7280758554555802590, 8532644243296465576, 9350256976987008742,
  10552545826968843579, 11727347734174303076, 12113106623233404929,
  14000437183269869457, 14369950271660146224, 15101387698204529176,
  15463397548674623760, 17586052441742319658, 1182934255886127544, 1847814050463011016,
  2177327727835720531, 2830643537854262169, 3796741975233480872, 4115178125766777443,
  5681478168544905931, 6601373596472566643, 7507060721942968483, 8399075790359081724,
  8693463985226723168, 9568029438360202098, 10144078919501101548, 10430055236837252648,
  11840083180663258601, 13761210420658862357, 14299343276471374635,
  14566680578165727644, 15097957966210449927, 16922976911328602910,
  17689382322260857208, 500013540394364858, 748580250866718886, 1242879168328830382,
  1977374033974150939, 2944078676154940804, 3659926193048069267, 4368137639120453308,
  4836135668995329356, 5532061633213252278, 6448918945643986474, 6902733635092675308,
  7801388544844847127]

/-- SHA-512 initial hash value (FIPS 180-4). -/
def sha512IV : List Nat := [
  7640891576956012808, 13503953896175478587, 4354685564936845355, 11912009170470909681,
  5840696475078001361, 11170449401992604703, 2270897969802886507, 6620516959819538809]

/-- SHA-384 initial hash value (FIPS 180-4). -/
def sha384IV : List Nat := [
  14680500436340154072, 7105036623409894663, 10473403895298186519, 1526699215303891257,
  7436329637833083697, 10282925794625328401, 15784041429090275239, 5167115440072839076]

/-- Extend a 16-word SHA-256 message schedule to 64 words. -/
def sha256Extend : Nat → List Nat → List Nat
  | 0, ws => ws
  | k + 1, ws =>
    let i := ws.length
    let a := ws.getD (i - 15) 0
    let b := ws.getD (i - 2) 0
    let s0 := w32 (rotr32 7 a ^^^ rotr32 18 a ^^^ a / 2 ^ 3)
    let s1 := w32 (rotr32 17 b ^^^ rotr32 19 b ^^^ b / 2 ^ 10)
    sha256Extend k (ws ++ [w32 (ws.getD (i - 16) 0 + s0 + ws.getD (i - 7) 0 + s1)])

/-- One SHA-256 compression round on the eight working registers. -/
def sha256Round (st : List Nat) (kw : Nat × Nat) : List Nat :=
  match st with
  | [a, b, c, d, e, f, g, h] =>
    let s1 := w32 (rotr32 6 e ^^^ rotr32 11 e ^^^ rotr32 25 e)
    let ch := w32 ((e &&& f) ^^^ ((4294967295 - e) &&& g))
    let t1 := w32 (h + s1 + ch + kw.1 + kw.2)
    let s0 := w32 (rotr32 2 a ^^^ rotr32 13 a ^^^ rotr32 22 a)
    let maj := w32 ((a &&& b) ^^^ (a &&& c) ^^^ (b &&& c))
    let t2 := w32 (s0 + maj)
    [w32 (t1 + t2), a, b, c, w32 (d + t1), e, f, g]
  | st => st

/-- Process one 64-byte SHA-256 block. -/
def sha256Block (st : List Nat) (block : List Nat) : List Nat :=
  let ws := sha256Extend 48 ((chunk 4 block).map beWord)
  let st' := (sha256K.zip ws).foldl sha256Round st
  (st.zip st').map fun p => w32 (p.1 + p.2)

/-- SHA-256 of a byte list, as 32 digest bytes. -/
def sha256Hash (msg : List Nat) : List Nat :=
  let st := (chunk 64 (shaPad 64 8 msg)).foldl sha256Block sha256IV
  (st.map (beBytes 4)).flatten

/-- Extend a 16-word SHA-512 message schedule to 80 words. -/
def sha512Extend : Nat → List Nat → List Nat
  | 0, ws => ws
  | k + 1, ws =>
    let i := ws.length
    let a := ws.getD (i - 15) 0
    let b := ws.getD (i - 2) 0
    let s0 := w64 (rotr64 1 a ^^^ rotr64 8 a ^^^ a / 2 ^ 7)
    let s1 := w64 (rotr64 19 b ^^^ rotr64 61 b ^^^ b / 2 ^ 6)
    sha512Extend k (ws ++ [w64 (ws.getD (i - 16) 0 + s0 + ws.getD (i - 7) 0 + s1)])

/-- One SHA-512 compression round on the eight working registers. -/
def sha512Round (st : List Nat) (kw : Nat × Nat) : List Nat :=
  match st with
  | [a, b, c, d, e, f, g, h] =>
    let s1 := w64 (rotr64 14 e ^^^ rotr64 18 e ^^^ rotr64 41 e)
    let ch := w64 ((e &&& f) ^^^ ((18446744073709551615 - e) &&& g))
    let t1 := w64 (h + s1 + ch + kw.1 + kw.2)
    let s0 := w64 (rotr64 28 a ^^^ rotr64 34 a ^^^ rotr64 39 a)
    let maj := w64 ((a &&& b) ^^^ (a &&& c) ^^^ (b &&& c))
    let t2 := w64 (s0 + maj)
    [w64 (t1 + t2), a, b, c, w64 (d + t1), e, f, g]
  | st => st

/-- Process one 128-byte SHA-512 block. -/
def sha512Block (st : List Nat) (block : List Nat) : List Nat :=
  let ws := sha512Extend 64 ((chunk 8 block).map beWord)
  let st' := (sha512K.zip ws).foldl sha512Round st
  (st.zip st').map fun p => w64 (p.1 + p.2)

/-- SHA-512 of a byte list, as 64 digest bytes. -/
def sha512Hash (msg : List Nat) : List Nat :=
  let st := (chunk 128 (shaPad 128 16 msg)).foldl sha512Block sha512IV
  (st.map (beBytes 8)).flatten

/-- SHA-384 of a byte list: SHA-512 with its own IV, truncated to 48 bytes. -/
def sha384Hash (msg : List Nat) : List Nat :=
  let st := (chunk 128 (shaPad 128 16 msg)).foldl sha512Block sha384IV
  ((st.map (beBytes 8)).flatten).take 48

/-- HMAC (RFC 2104) over the given hash function and block size, as used by
Go's `crypto/hmac`. -/
def hmacGen (hashFn : List Nat → List Nat) (blockSize : Nat) (key msg : List Nat) :
    List Nat :=
  let k0 := if blockSize < key.length then hashFn key else key
  let k := k0 ++ List.replicate (blockSize - k0.length) 0
  hashFn ((k.map fun b => b ^^^ 0x5c) ++ hashFn ((k.map fun b => b ^^^ 0x36) ++ msg))

/-- Lowercase hex digit for a value below 16. -/
def hexDigit (n : Nat) : Char :=
  if n < 10 then Char.ofNat (48 + n) else Char.ofNat (87 + n)

/-- Go `hex.EncodeToString`: two lowercase hex digits per byte. -/
def hexEncode (bs : List Nat) : String :=
  String.mk ((bs.map fun b => [hexDigit (b / 16), hexDigit (b % 16)]).flatten)

/-- Go `GenerateSignature` (internal/dchook): HMAC over the payload with the
requested algorithm, rendered as `algorithm:hex`; empty for any algorithm
outside the three supported ones. -/
def GenerateSignature (payload secret : List Nat) (algorithm : String) : String :=
  if algorithm == "sha256" then
    algorithm ++ ":" ++ hexEncode (hmacGen sha256Hash 64 secret payload)
  else if algorithm == "sha384" then
    algorithm ++ ":" ++ hexEncode (hmacGen sha384Hash 128 secret payload)
  else if algorithm == "sha512" then
    algorithm ++ ":" ++ hexEncode (hmacGen sha512Hash 128 secret payload)
  else ""

/-- Go `VerifySignature` (internal/dchook): split on the first colon, check
the algorithm allowlist, recompute the expected signature, and compare the
hash halves byte for byte (`hmac.Equal`). -/
def VerifySignature (payload : List Nat) (signature : String) (secret : List Nat)
    (allowedAlgorithms : String → Bool) : Bool :=
  match splitColon signature with
  | [algorithm, expectedHash] =>
    if !allowedAlgorithms algorithm then false
    else
      let actualSignature := GenerateSignature payload secret algorithm
      if actualSignature == "" then false
      else
        match splitColon actualSignature with
        | [_, actualHash] => expectedHash == actualHash
        | _ => false
  | _ => false

/-- The authenticated envelope metadata decoded from the request body
(`envelope.Dchook` in cmd/dchook/main.go). -/
structure Envelope where
  version : String
  commit : String
  timestamp : String

/-- Outcome of one request through the `/deploy` handler, one constructor per
rejection site plus acceptance. -/
inductive Outcome where
  | forbidden
  | badRead
  | unauthorized
  | badEnvelope
  | badTimestamp
  | replayRejected
  | versionMismatch
  | rateLimited
  | accepted
deriving DecidableEq

/-- The `/deploy` handler of cmd/dchook/main.go, from the point where the
client identity has been resolved.  The bounded body read and the JSON
envelope decode are external collaborators, modelled by their results
(`body`, `decoded`); the timestamp parse is `strconv.ParseInt(_, 10, 64)`,
which is `goAtoi`.  Each branch matches one rejection of the handler, with
its `RecordFailure` side effect where the code has one. -/
def handleDeploy (rl : RateLimiter) (now : Int) (ip : String)
    (body : Option (List Nat)) (signature : String) (secret : List Nat)
    (allowedAlgorithms : String → Bool) (decoded : Option Envelope)
    (serverVersion serverCommit : String) : Outcome × RateLimiter :=
  let ban := IsBanned rl now ip
  if ban.1 then (.forbidden, ban.2)
  else
    match body with
    | none => (.badRead, RecordFailure ban.2 now ip)
    | some bodyBytes =>
      if !VerifySignature bodyBytes signature secret allowedAlgorithms then
        (.unauthorized, RecordFailure ban.2 now ip)
      else
        match decoded with
        | none => (.badEnvelope, RecordFailure ban.2 now ip)
        | some envelope =>
          match goAtoi envelope.timestamp with
          | none => (.badTimestamp, RecordFailure ban.2 now ip)
          | some timestamp =>
            let replay := CheckReplay ban.2 now timestamp
            if !replay.1 then (.replayRejected, RecordFailure replay.2 now ip)
            else if !IsVersionCompatible envelope.version serverVersion
                envelope.commit serverCommit then
              (.versionMismatch, RecordFailure replay.2 now ip)
            else
              let success := RecordSuccess replay.2 now ip
              if !success.1 then (.rateLimited, success.2)
              else (.accepted, success.2)

theorem RecordFailure_failed (rl : RateLimiter) (now : Int) (ip : String) :
    (RecordFailure rl now ip).failedRequests ip = rl.failedRequests ip + 1 := by
  simp only [RecordFailure]
  split <;> simp

theorem RecordFailure_failed_other (rl : RateLimiter) (now : Int) (ip ip' : String)
    (h : ip' ≠ ip) :
    (RecordFailure rl now ip).failedRequests ip' = rl.failedRequests ip' := by
  simp only [RecordFailure]
  split <;> simp [upd, h]

theorem RecordFailure_banned (rl : RateLimiter) (now : Int) (ip : String) :
    (RecordFailure rl now ip).bannedUntil ip =
      if rl.failedRequests ip + 1 ≥ rl.failLimit then some (now + rl.banDuration)
      else rl.bannedUntil ip := by
  simp only [RecordFailure]
  split <;> simp_all

theorem RecordFailure_failLimit (rl : RateLimiter) (now : Int) (ip : String) :
    (RecordFailure rl now ip).failLimit = rl.failLimit := by
  simp only [RecordFailure]; split <;> rfl

theorem RecordFailure_banDuration (rl : RateLimiter) (now : Int) (ip : String) :
    (RecordFailure rl now ip).banDuration = rl.banDuration := by
  simp only [RecordFailure]; split <;> rfl

theorem RecordFailure_successRequests (rl : RateLimiter) (now : Int) (ip : String) :
    (RecordFailure rl now ip).successRequests = rl.successRequests := by
  simp only [RecordFailure]; split <;> rfl

theorem RecordFailure_successLimit (rl : RateLimiter) (now : Int) (ip : String) :
    (RecordFailure rl now ip).successLimit = rl.successLimit := by
  simp only [RecordFailure]; split <;> rfl

theorem RecordFailure_successWindow (rl : RateLimiter) (now : Int) (ip : String) :
    (RecordFailure rl now ip).successWindow = rl.successWindow := by
  simp only [RecordFailure]; split <;> rfl

theorem RecordSuccess_false_state (rl : RateLimiter) (now : Int) (ip : String)
    (h : (RecordSuccess rl now ip).1 = false) : (RecordSuccess rl now ip).2 = rl := by
  simp only [RecordSuccess] at h ⊢
  split at h <;> simp_all

theorem RecordSuccess_true_failed (rl : RateLimiter) (now : Int) (ip : String)
    (h : (RecordSuccess rl now ip).1 = true) :
    (RecordSuccess rl now ip).2.failedRequests ip = 0 := by
  simp only [RecordSuccess] at h ⊢
  split at h
  · simp at h
  · rw [if_neg (by omega)]
    simp

theorem RecordSuccess_bannedUntil (rl : RateLimiter) (now : Int) (ip : String) :
    (RecordSuccess rl now ip).2.bannedUntil = rl.bannedUntil := by
  simp only [RecordSuccess]
  split <;> rfl

theorem RecordSuccess_failLimit (rl : RateLimiter) (now : Int) (ip : String) :
    (RecordSuccess rl now ip).2.failLimit = rl.failLimit := by
  simp only [RecordSuccess]; split <;> rfl

theorem RecordSuccess_banDuration (rl : RateLimiter) (now : Int) (ip : String) :
    (RecordSuccess rl now ip).2.banDuration = rl.banDuration := by
  simp only [RecordSuccess]; split <;> rfl

theorem RecordSuccess_successLimit (rl : RateLimiter) (now : Int) (ip : String) :
    (RecordSuccess rl now ip).2.successLimit = rl.successLimit := by
  simp only [RecordSuccess]; split <;> rfl

theorem RecordSuccess_successWindow (rl : RateLimiter) (now : Int) (ip : String) :
    (RecordSuccess rl now ip).2.successWindow = rl.successWindow := by
  simp only [RecordSuccess]; split <;> rfl

theorem RecordSuccess_other (rl : RateLimiter) (now : Int) (ip ip' : String)
    (h : ip' ≠ ip) :
    (RecordSuccess rl now ip).2.successRequests ip' = rl.successRequests ip' ∧
    (RecordSuccess rl now ip).2.failedRequests ip' = rl.failedRequests ip' ∧
    (RecordSuccess rl now ip).2.bannedUntil ip' = rl.bannedUntil ip' := by
  simp only [RecordSuccess]
  split <;> simp [upd, h]

theorem RecordSuccess_failed_preserved (rl : RateLimiter) (now : Int) (ip : String)
    (h : (RecordSuccess rl now ip).1 = false) :
    (RecordSuccess rl now ip).2.failedRequests ip = rl.failedRequests ip := by
  rw [RecordSuccess_false_state rl now ip h]

theorem IsBanned_none (rl : RateLimiter) (now : Int) (ip : String)
    (h : rl.bannedUntil ip = none) : IsBanned rl now ip = (false, rl) := by
  simp [IsBanned, h]

theorem IsBanned_active (rl : RateLimiter) (now : Int) (ip : String) (b : Int)
    (h : rl.bannedUntil ip = some b) (hlt : now < b) :
    IsBanned rl now ip = (true, rl) := by
  simp [IsBanned, h, hlt]

theorem IsBanned_expired (rl : RateLimiter) (now : Int) (ip : String) (b : Int)
    (h : rl.bannedUntil ip = some b) (hge : b ≤ now) :
    (IsBanned rl now ip).1 = false ∧
    (IsBanned rl now ip).2.bannedUntil ip = none ∧
    (IsBanned rl now ip).2.failedRequests ip = 0 := by
  simp [IsBanned, h, not_lt.mpr hge]

theorem CheckReplay_failedRequests (rl : RateLimiter) (now timestamp : Int) :
    (CheckReplay rl now timestamp).2.failedRequests = rl.failedRequests := by
  simp only [CheckReplay]
  split
  · rfl
  · split <;> rfl

theorem CheckReplay_successRequests (rl : RateLimiter) (now timestamp : Int) :
    (CheckReplay rl now timestamp).2.successRequests = rl.successRequests := by
  simp only [CheckReplay]
  split
  · rfl
  · split <;> rfl

theorem CheckReplay_bannedUntil (rl : RateLimiter) (now timestamp : Int) :
    (CheckReplay rl now timestamp).2.bannedUntil = rl.bannedUntil := by
  simp only [CheckReplay]
  split
  · rfl
  · split <;> rfl

theorem CheckReplay_out_of_window (rl : RateLimiter) (now timestamp : Int)
    (h : 1000 * timestamp < now - fiveMinutes ∨ 1000 * timestamp > now + oneMinute) :
    CheckReplay rl now timestamp = (false, rl) := by
  simp only [CheckReplay]
  rcases h with h | h <;> simp [h]

theorem CheckReplay_seen (rl : RateLimiter) (now timestamp : Int)
    (h : rl.seenTimestamps timestamp ≠ none) :
    CheckReplay rl now timestamp = (false, rl) := by
  simp only [CheckReplay]
  split
  · rfl
  · cases hs : rl.seenTimestamps timestamp with
    | none => exact absurd hs h
    | some r => simp [hs]

theorem CheckReplay_fresh (rl : RateLimiter) (now timestamp : Int)
    (hseen : rl.seenTimestamps timestamp = none)
    (hlo : now - fiveMinutes ≤ 1000 * timestamp)
    (hhi : 1000 * timestamp ≤ now + oneMinute) :
    (CheckReplay rl now timestamp).1 = true ∧
    (CheckReplay rl now timestamp).2.seenTimestamps timestamp = some now := by
  simp [CheckReplay, not_lt.mpr hlo, not_lt.mpr hhi, hseen]

/-- One AbuseController call, for stating whole-controller invariants. -/
inductive Op where
  | isBanned (now : Int) (ip : String)
  | checkReplay (now : Int) (ts : Int)
  | recordSuccess (now : Int) (ip : String)
  | recordFailure (now : Int) (ip : String)

/-- The state transition of one AbuseController call. -/
def applyOp (rl : RateLimiter) : Op → RateLimiter
  | .isBanned now ip => (IsBanned rl now ip).2
  | .checkReplay now ts => (CheckReplay rl now ts).2
  | .recordSuccess now ip => (RecordSuccess rl now ip).2
  | .recordFailure now ip => RecordFailure rl now ip

/-- A finite sequence of AbuseController calls. -/
def runOps (rl : RateLimiter) (ops : List Op) : RateLimiter := ops.foldl applyOp rl

theorem recordFailures_nil (rl : RateLimiter) (ip : String) :
    recordFailures rl [] ip = rl := rfl

theorem recordFailures_cons (rl : RateLimiter) (t : Int) (ts : List Int) (ip : String) :
    recordFailures rl (t :: ts) ip = recordFailures (RecordFailure rl t ip) ts ip := rfl

theorem recordFailures_failed (ts : List Int) (rl : RateLimiter) (ip : String) :
    (recordFailures rl ts ip).failedRequests ip =
      rl.failedRequests ip + ts.length := by
  induction ts generalizing rl with
  | nil => simp [recordFailures_nil]
  | cons t rest ih =>
    rw [recordFailures_cons, ih, RecordFailure_failed]
    simp only [List.length_cons]
    push_cast
    ring

theorem recordFailures_failLimit (ts : List Int) (rl : RateLimiter) (ip : String) :
    (recordFailures rl ts ip).failLimit = rl.failLimit := by
  induction ts generalizing rl with
  | nil => rfl
  | cons t rest ih => rw [recordFailures_cons, ih, RecordFailure_failLimit]

theorem recordFailures_banDuration (ts : List Int) (rl : RateLimiter) (ip : String) :
    (recordFailures rl ts ip).banDuration = rl.banDuration := by
  induction ts generalizing rl with
  | nil => rfl
  | cons t rest ih => rw [recordFailures_cons, ih, RecordFailure_banDuration]

theorem recordFailures_ban_none (ts : List Int) (rl : RateLimiter) (ip : String)
    (hb : rl.bannedUntil ip = none)
    (hlt : rl.failedRequests ip + ts.length < rl.failLimit) :
    (recordFailures rl ts ip).bannedUntil ip = none := by
  induction ts generalizing rl with
  | nil => exact hb
  | cons t rest ih =>
    simp only [List.length_cons] at hlt
    rw [recordFailures_cons]
    apply ih
    · rw [RecordFailure_banned, if_neg (by push_cast at hlt ⊢; omega)]
      exact hb
    · rw [RecordFailure_failed, RecordFailure_failLimit]
      push_cast at hlt ⊢
      omega

theorem recordFailures_ban_last (ts : List Int) (hne : ts ≠ []) (rl : RateLimiter)
    (ip : String)
    (hge : rl.failLimit ≤ rl.failedRequests ip + ts.length) :
    (recordFailures rl ts ip).bannedUntil ip =
      some (ts.getLast hne + rl.banDuration) := by
  induction ts generalizing rl with
  | nil => exact absurd rfl hne
  | cons t rest ih =>
    rw [recordFailures_cons]
    cases rest with
    | nil =>
      rw [recordFailures_nil, List.getLast_singleton]
      rw [RecordFailure_banned, if_pos (by simp at hge; omega)]
    | cons u us =>
      rw [List.getLast_cons (by simp)]
      have step := ih (by simp) (RecordFailure rl t ip) (by
        rw [RecordFailure_failed, RecordFailure_failLimit]
        simp only [List.length_cons] at hge ⊢
        push_cast at hge ⊢
        omega)
      rw [step, RecordFailure_banDuration]

/-- C2: starting from a fresh identity, exactly `failLimit` consecutive
`RecordFailure` calls with no intervening success leave no ban after any
proper prefix, and after the full sequence `IsBanned` is true (with no state
change) at every instant before the last failure plus `banDuration`, while
any call at or past that expiry returns false and in the same call clears
both the ban record and the failure counter. -/
theorem ban_lifecycle (rl : RateLimiter) (ip : String) (ts : List Int) (hne : ts ≠ [])
    (hfresh : rl.failedRequests ip = 0) (hban : rl.bannedUntil ip = none)
    (hlen : (ts.length : Int) = rl.failLimit) :
    (∀ k, k < ts.length → (recordFailures rl (ts.take k) ip).bannedUntil ip = none) ∧
    (∀ now, now < ts.getLast hne + rl.banDuration →
      IsBanned (recordFailures rl ts ip) now ip = (true, recordFailures rl ts ip)) ∧
    (∀ now, ts.getLast hne + rl.banDuration ≤ now →
      (IsBanned (recordFailures rl ts ip) now ip).1 = false ∧
      (IsBanned (recordFailures rl ts ip) now ip).2.bannedUntil ip = none ∧
      (IsBanned (recordFailures rl ts ip) now ip).2.failedRequests ip = 0) := by
  have hbanS : (recordFailures rl ts ip).bannedUntil ip =
      some (ts.getLast hne + rl.banDuration) := by
    apply recordFailures_ban_last
    rw [hfresh]
    omega
  refine ⟨?_, ?_, ?_⟩
  · intro k hk
    apply recordFailures_ban_none _ _ _ hban
    rw [hfresh, List.length_take]
    omega
  · intro now hlt
    exact IsBanned_active _ now ip _ hbanS hlt
  · intro now hge
    exact IsBanned_expired _ now ip _ hbanS hge

theorem ban_lifecycle_witness :
    (IsBanned (recordFailures (NewRateLimiter 1 60 2 3600 600) [1, 2] "a") 100 "a").1
      = true ∧
    (IsBanned (recordFailures (NewRateLimiter 1 60 2 3600 600) [1, 2] "a") 5000 "a").1
      = false ∧
    (IsBanned (recordFailures (NewRateLimiter 1 60 2 3600 600) [1, 2] "a")
        5000 "a").2.failedRequests "a" = 0 := by
  have h := ban_lifecycle (NewRateLimiter 1 60 2 3600 600) "a" [1, 2]
    (by decide) rfl rfl (by decide)
  refine ⟨?_, (h.2.2 5000 (by decide)).1, (h.2.2 5000 (by decide)).2.2⟩
  rw [h.2.1 100 (by decide)]

/-- C4: a timestamp whose instant lies in `[now - 5min, now + 1min]` and that
is not in the seen set is accepted and recorded; any call that finds the
timestamp in the seen set, and any call whose timestamp is outside the
window, returns false and leaves the state (in particular the seen set)
completely unchanged. -/
theorem checkReplay_accepts_once :
    (∀ (rl : RateLimiter) (now timestamp : Int),
      rl.seenTimestamps timestamp = none →
      now - fiveMinutes ≤ 1000 * timestamp →
      1000 * timestamp ≤ now + oneMinute →
      (CheckReplay rl now timestamp).1 = true ∧
      (CheckReplay rl now timestamp).2.seenTimestamps timestamp = some now) ∧
    (∀ (rl : RateLimiter) (now timestamp : Int),
      rl.seenTimestamps timestamp ≠ none →
      CheckReplay rl now timestamp = (false, rl)) ∧
    (∀ (rl : RateLimiter) (now timestamp : Int),
      1000 * timestamp < now - fiveMinutes ∨ 1000 * timestamp > now + oneMinute →
      CheckReplay rl now timestamp = (false, rl)) :=
  ⟨CheckReplay_fresh, CheckReplay_seen, CheckReplay_out_of_window⟩

theorem checkReplay_accepts_once_witness :
    (CheckReplay (NewRateLimiter 1 60000000000 2 3600000000000 600000000000)
        2000000000000 2000000000).1 = true ∧
    CheckReplay (CheckReplay (NewRateLimiter 1 60000000000 2 3600000000000 600000000000)
          2000000000000 2000000000).2 2000000000000 2000000000 =
      (false, (CheckReplay (NewRateLimiter 1 60000000000 2 3600000000000 600000000000)
          2000000000000 2000000000).2) := by
  refine ⟨(checkReplay_accepts_once.1 _ _ _ rfl (by decide) (by decide)).1,
    checkReplay_accepts_once.2.1 _ _ _ ?_⟩
  rw [(checkReplay_accepts_once.1 _ 2000000000000 2000000000 rfl
    (by decide) (by decide)).2]
  simp

/-- C5: a client version `"1.0.0"` against a server version `"v1.0.0"` (and
vice versa) is compatible for every pair of commits, equal or not: the exact
match test compares the original unstripped strings, so the commit check is
skipped although the versions are numerically identical. -/
theorem versionCompatible_unstripped_mismatch (clientCommit serverCommit : String) :
    IsVersionCompatible "1.0.0" "v1.0.0" clientCommit serverCommit = true ∧
    IsVersionCompatible "v1.0.0" "1.0.0" clientCommit serverCommit = true :=
  ⟨rfl, rfl⟩

/-- C6: an accepted success always resets the identity's failure counter to
zero, and `failLimit - 1` failures, one accepted success, then `failLimit - 1`
further failures leave the identity unbanned. -/
theorem success_resets_failures :
    (∀ (rl : RateLimiter) (now : Int) (ip : String),
      (RecordSuccess rl now ip).1 = true →
      (RecordSuccess rl now ip).2.failedRequests ip = 0) ∧
    (∀ (rl : RateLimiter) (ip : String) (ts1 : List Int) (t : Int) (ts2 : List Int)
      (hf : rl.failedRequests ip = 0) (hb : rl.bannedUntil ip = none)
      (hlen : (ts1.length : Int) + 1 = rl.failLimit) (hlen2 : ts2.length = ts1.length)
      (hacc : (RecordSuccess (recordFailures rl ts1 ip) t ip).1 = true),
      ∀ now, (IsBanned (recordFailures
        (RecordSuccess (recordFailures rl ts1 ip) t ip).2 ts2 ip) now ip).1 = false) := by
  constructor
  · exact RecordSuccess_true_failed
  · intro rl ip ts1 t ts2 hf hb hlen hlen2 hacc now
    have hS1ban : (recordFailures rl ts1 ip).bannedUntil ip = none := by
      apply recordFailures_ban_none _ _ _ hb
      omega
    have hS2f : (RecordSuccess (recordFailures rl ts1 ip) t ip).2.failedRequests ip = 0 :=
      RecordSuccess_true_failed _ _ _ hacc
    have hS2b : (RecordSuccess (recordFailures rl ts1 ip) t ip).2.bannedUntil ip = none := by
      rw [RecordSuccess_bannedUntil]
      exact hS1ban
    have hS2L : (RecordSuccess (recordFailures rl ts1 ip) t ip).2.failLimit = rl.failLimit := by
      rw [RecordSuccess_failLimit, recordFailures_failLimit]
    have hS3b : (recordFailures
        (RecordSuccess (recordFailures rl ts1 ip) t ip).2 ts2 ip).bannedUntil ip = none := by
      apply recordFailures_ban_none _ _ _ hS2b
      rw [hS2f, hS2L, hlen2]
      omega
    rw [IsBanned_none _ now ip hS3b]

theorem success_resets_failures_witness :
    (RecordSuccess (NewRateLimiter 1 1000 2 3600 600) 5 "a").2.failedRequests "a" = 0 ∧
    (IsBanned (recordFailures
        (RecordSuccess (recordFailures (NewRateLimiter 5 1000 2 3600 600) [1] "a") 2 "a").2
        [3] "a") 4 "a").1 = false :=
  ⟨success_resets_failures.1 _ 5 "a" (by decide),
    success_resets_failures.2 (NewRateLimiter 5 1000 2 3600 600) "a" [1] 2 [3]
      rfl rfl (by decide) (by decide) (by decide) 4⟩

/-- C9: every `RecordFailure` call that brings or keeps the failure counter
at or above `failLimit` re-sets the ban expiry to `now + banDuration`. -/
theorem recordFailure_extends_ban (rl : RateLimiter) (now : Int) (ip : String)
    (h : rl.failLimit ≤ rl.failedRequests ip + 1) :
    (RecordFailure rl now ip).bannedUntil ip = some (now + rl.banDuration) := by
  rw [RecordFailure_banned, if_pos h]

theorem recordFailure_extends_ban_witness :
    (RecordFailure { NewRateLimiter 1 60 2 3600 600 with
        failedRequests := upd (fun _ => 0) "a" 5
        bannedUntil := upd (fun _ => none) "a" (some 40) } 100 "a").bannedUntil "a"
      = some (100 + 3600) :=
  recordFailure_extends_ban _ 100 "a" (by decide)

theorem splitColonAux_spec (t : List Char) : ∀ (pre acc : List Char), ':' ∉ pre →
    splitColonAux (pre ++ ':' :: t) acc =
      [String.mk (acc.reverse ++ pre), String.mk t] := by
  intro pre
  induction pre with
  | nil =>
    intro acc h
    simp [splitColonAux]
  | cons c cs ih =>
    intro acc h
    have hc : ¬(c = ':') := fun hh => h (hh ▸ List.mem_cons_self c cs)
    simp only [List.cons_append, splitColonAux, if_neg hc]
    show splitColonAux (cs ++ ':' :: t) (c :: acc) = _
    rw [ih (c :: acc) (fun hm => h (List.mem_cons_of_mem c hm))]
    simp

theorem splitColon_of_append (alg rest : String) (h : ':' ∉ alg.data) :
    splitColon (alg ++ ":" ++ rest) = [alg, rest] := by
  unfold splitColon
  have hd : (alg ++ ":" ++ rest).data = alg.data ++ ':' :: rest.data := by
    simp [String.data_append]
  rw [hd, splitColonAux_spec rest.data alg.data [] h]
  simp only [List.reverse_nil, List.nil_append]

theorem append_colon_ne_empty (a b : String) : (a ++ ":" ++ b == "") = false := by
  apply beq_eq_false_iff_ne.mpr
  intro h
  have hd := congrArg String.data h
  simp [String.data_append] at hd

theorem verify_generate_of (P S : List Nat) (alg : String) (halg : ':' ∉ alg.data)
    (X : List Nat) (hgen : GenerateSignature P S alg = alg ++ ":" ++ hexEncode X) :
    VerifySignature P (GenerateSignature P S alg) S (fun a => a == alg) = true := by
  simp [VerifySignature, hgen, splitColon_of_append _ _ halg, append_colon_ne_empty]

/-- C3: a signature produced by `GenerateSignature` always verifies against
the same payload, secret, and the singleton allowlist of its algorithm, for
each of the three supported algorithms and all payloads and secrets,
including empty ones. -/
theorem generated_signature_verifies (P S : List Nat) :
    VerifySignature P (GenerateSignature P S "sha256") S (fun a => a == "sha256") = true ∧
    VerifySignature P (GenerateSignature P S "sha384") S (fun a => a == "sha384") = true ∧
    VerifySignature P (GenerateSignature P S "sha512") S (fun a => a == "sha512") = true :=
  ⟨verify_generate_of P S "sha256" (by decide) _ rfl,
   verify_generate_of P S "sha384" (by decide) _ rfl,
   verify_generate_of P S "sha512" (by decide) _ rfl⟩

theorem IsBanned_successRequests (rl : RateLimiter) (now : Int) (ip : String) :
    (IsBanned rl now ip).2.successRequests = rl.successRequests := by
  simp only [IsBanned]
  split
  · split <;> rfl
  · rfl

theorem IsBanned_successLimit (rl : RateLimiter) (now : Int) (ip : String) :
    (IsBanned rl now ip).2.successLimit = rl.successLimit := by
  simp only [IsBanned]
  split
  · split <;> rfl
  · rfl

theorem CheckReplay_successLimit (rl : RateLimiter) (now timestamp : Int) :
    (CheckReplay rl now timestamp).2.successLimit = rl.successLimit := by
  simp only [CheckReplay]
  split
  · rfl
  · split <;> rfl

theorem RecordSuccess_histLen (rl : RateLimiter) (now : Int) (ip : String)
    (h : ∀ j, ((rl.successRequests j).length : Int) ≤ rl.successLimit) :
    ∀ j, (((RecordSuccess rl now ip).2.successRequests j).length : Int) ≤ rl.successLimit := by
  intro j
  simp only [RecordSuccess]
  split
  · exact h j
  · by_cases hj : j = ip
    · subst hj
      simp only [upd_same, List.length_append, List.length_singleton]
      push_cast
      omega
    · simp only [upd_other _ _ _ _ hj]
      exact h j

theorem applyOp_successLimit (rl : RateLimiter) (op : Op) :
    (applyOp rl op).successLimit = rl.successLimit := by
  cases op with
  | isBanned now ip => exact IsBanned_successLimit rl now ip
  | checkReplay now ts => exact CheckReplay_successLimit rl now ts
  | recordSuccess now ip => exact RecordSuccess_successLimit rl now ip
  | recordFailure now ip => exact RecordFailure_successLimit rl now ip

theorem applyOp_histLen (rl : RateLimiter) (op : Op)
    (h : ∀ j, ((rl.successRequests j).length : Int) ≤ rl.successLimit) :
    ∀ j, (((applyOp rl op).successRequests j).length : Int) ≤ rl.successLimit := by
  cases op with
  | isBanned now ip => intro j; rw [applyOp, IsBanned_successRequests]; exact h j
  | checkReplay now ts => intro j; rw [applyOp, CheckReplay_successRequests]; exact h j
  | recordSuccess now ip => exact RecordSuccess_histLen rl now ip h
  | recordFailure now ip => intro j; rw [applyOp, RecordFailure_successRequests]; exact h j

theorem runOps_successLimit (ops : List Op) : ∀ (rl : RateLimiter),
    (runOps rl ops).successLimit = rl.successLimit := by
  induction ops with
  | nil => intro rl; rfl
  | cons op rest ih =>
    intro rl
    show (runOps (applyOp rl op) rest).successLimit = _
    rw [ih, applyOp_successLimit]

theorem runOps_histLen (ops : List Op) : ∀ (rl : RateLimiter),
    (∀ j, ((rl.successRequests j).length : Int) ≤ rl.successLimit) →
    ∀ j, (((runOps rl ops).successRequests j).length : Int) ≤ rl.successLimit := by
  induction ops with
  | nil => intro rl h; exact h
  | cons op rest ih =>
    intro rl h j
    show (((runOps (applyOp rl op) rest).successRequests j).length : Int) ≤ _
    rw [← applyOp_successLimit rl op]
    exact ih (applyOp rl op) (fun i => by
      rw [applyOp_successLimit]; exact applyOp_histLen rl op h i) j

/-- C8: with a nonnegative `successLimit`, every per-identity success history
of a fresh controller stays at or below `successLimit` in length at every
point of every finite sequence of controller calls. -/
theorem successHistory_bounded (sl sw fl bd rpw : Int) (hsl : 0 ≤ sl)
    (ops : List Op) (k : Nat) (ip : String) :
    (((runOps (NewRateLimiter sl sw fl bd rpw) (ops.take k)).successRequests ip).length : Int)
      ≤ sl := by
  have h := runOps_histLen (ops.take k) (NewRateLimiter sl sw fl bd rpw)
    (fun j => by simpa [NewRateLimiter] using hsl) ip
  simpa [NewRateLimiter] using h

theorem successHistory_bounded_witness :
    (((runOps (NewRateLimiter 1 1000 2 3600 600)
        ([Op.recordSuccess 5 "a", Op.recordSuccess 6 "a", Op.recordSuccess 7 "a"].take 3)
      ).successRequests "a").length : Int) ≤ 1 :=
  successHistory_bounded 1 1000 2 3600 600 (by decide)
    [Op.recordSuccess 5 "a", Op.recordSuccess 6 "a", Op.recordSuccess 7 "a"] 3 "a"

theorem recordSuccesses_cons (rl : RateLimiter) (t : Int) (ts : List Int) (ip : String) :
    recordSuccesses rl (t :: ts) ip =
      ((RecordSuccess rl t ip).1 :: (recordSuccesses (RecordSuccess rl t ip).2 ts ip).1,
        (recordSuccesses (RecordSuccess rl t ip).2 ts ip).2) := rfl

theorem recordSuccesses_spec (ip : String) (n : Nat) :
    ∀ (ts : List Int) (rl : RateLimiter),
    rl.successLimit = (n : Int) →
    (∀ x ∈ rl.successRequests ip, ∀ u ∈ ts, u - rl.successWindow < x) →
    (∀ u ∈ ts, ∀ v ∈ ts, v - rl.successWindow < u) →
    (recordSuccesses rl ts ip).1 =
      (List.range ts.length).map
        (fun i => decide ((rl.successRequests ip).length + i < n)) := by
  intro ts
  induction ts with
  | nil => intro rl _ _ _; rfl
  | cons t rest ih =>
    intro rl hlim hsuffix hspan
    have hfilter : (rl.successRequests ip).filter
        (fun x => decide (t - rl.successWindow < x)) = rl.successRequests ip := by
      apply List.filter_eq_self.mpr
      intro x hx
      exact decide_eq_true (hsuffix x hx t (List.mem_cons_self _ _))
    rw [recordSuccesses_cons]
    simp only [RecordSuccess, hfilter, hlim]
    simp only [List.length_cons]
    rw [List.range_succ_eq_map, List.map_cons, List.map_map]
    split
    · rename_i hge
      rw [ih rl hlim
        (fun x hx u hu => hsuffix x hx u (List.mem_cons_of_mem t hu))
        (fun u hu v hv => hspan u (List.mem_cons_of_mem t hu) v (List.mem_cons_of_mem t hv))]
      refine List.cons_eq_cons.mpr ⟨?_, ?_⟩
      · rw [Nat.add_zero]
        symm
        exact decide_eq_false (by omega)
      · apply List.map_congr_left
        intro i _
        simp only [Function.comp_apply]
        exact decide_eq_decide.mpr (by omega)
    · rename_i hlt
      rw [ih _ (by simp [hlim]) ?hsuf ?hsp]
      case hsuf =>
        intro x hx u hu
        simp only [upd_same] at hx
        rcases List.mem_append.mp hx with hx | hx
        · exact hsuffix x hx u (List.mem_cons_of_mem t hu)
        · rw [List.mem_singleton.mp hx] at *
          exact hspan t (List.mem_cons_self _ _) u (List.mem_cons_of_mem t hu)
      case hsp =>
        intro u hu v hv
        exact hspan u (List.mem_cons_of_mem t hu) v (List.mem_cons_of_mem t hv)
      refine List.cons_eq_cons.mpr ⟨?_, ?_⟩
      · rw [Nat.add_zero]
        symm
        exact decide_eq_true (by omega)
      · simp only [upd_same, List.length_append, List.length_singleton]
        apply List.map_congr_left
        intro i _
        simp only [Function.comp_apply]
        exact decide_eq_decide.mpr (by omega)

/-- C7: for one identity with empty history, `successLimit + 1` calls within
one success window return true exactly `successLimit` times and then false; a
rejected call leaves the whole state unchanged; another identity's history,
failure counter and ban record are never touched. -/
theorem successRate_limit_sequence :
    (∀ (rl : RateLimiter) (ip : String) (n : Nat) (ts : List Int),
      rl.successRequests ip = [] → rl.successLimit = (n : Int) →
      ts.length = n + 1 →
      (∀ u ∈ ts, ∀ v ∈ ts, v - rl.successWindow < u) →
      (recordSuccesses rl ts ip).1 = List.replicate n true ++ [false]) ∧
    (∀ (rl : RateLimiter) (now : Int) (ip : String),
      (RecordSuccess rl now ip).1 = false → (RecordSuccess rl now ip).2 = rl) ∧
    (∀ (rl : RateLimiter) (now : Int) (ip ip' : String), ip' ≠ ip →
      (RecordSuccess rl now ip).2.successRequests ip' = rl.successRequests ip' ∧
      (RecordSuccess rl now ip).2.failedRequests ip' = rl.failedRequests ip' ∧
      (RecordSuccess rl now ip).2.bannedUntil ip' = rl.bannedUntil ip') := by
  refine ⟨?_, RecordSuccess_false_state, RecordSuccess_other⟩
  intro rl ip n ts hemp hlim hlen hspan
  rw [recordSuccesses_spec ip n ts rl hlim
    (by rw [hemp]; intro x hx; cases hx) hspan]
  rw [hemp, hlen]
  simp only [List.length_nil, Nat.zero_add]
  rw [List.range_succ, List.map_append]
  congr 1
  · apply List.eq_replicate_iff.mpr
    constructor
    · simp
    · intro b hb
      rcases List.mem_map.mp hb with ⟨i, hi, rfl⟩
      exact decide_eq_true (List.mem_range.mp hi)
  · simp

theorem successRate_limit_sequence_witness :
    (recordSuccesses (NewRateLimiter 2 1000 2 3600 600) [1, 2, 3] "a").1
      = [true, true, false] ∧
    (RecordSuccess (NewRateLimiter 0 1000 2 3600 600) 5 "a").2
      = NewRateLimiter 0 1000 2 3600 600 ∧
    (RecordSuccess (NewRateLimiter 2 1000 2 3600 600) 5 "a").2.successRequests "b"
      = [] := by
  refine ⟨?_, successRate_limit_sequence.2.1 _ 5 "a" (by decide),
    (successRate_limit_sequence.2.2 _ 5 "a" "b" (by decide)).1⟩
  exact successRate_limit_sequence.1 (NewRateLimiter 2 1000 2 3600 600) "a" 2 [1, 2, 3]
    rfl (by decide) (by decide) (by decide)

/-- C1, counterexample: when the identity carries an expired ban together
with a nonzero failure counter, the ban check clears the counter before the
signature check runs, so a signature rejection ends with counter 1 rather
than the entry counter plus one. -/
theorem pipeline_increment_counterexample :
    (handleDeploy
        { NewRateLimiter 1 60 2 3600 600 with
            bannedUntil := upd (fun _ => none) "1.2.3.4" (some 5)
            failedRequests := upd (fun _ => 0) "1.2.3.4" 2 }
        10 "1.2.3.4" (some []) "" [] (fun _ => false) none "dev"
        "c").1 = Outcome.unauthorized ∧
    (handleDeploy
        { NewRateLimiter 1 60 2 3600 600 with
            bannedUntil := upd (fun _ => none) "1.2.3.4" (some 5)
            failedRequests := upd (fun _ => 0) "1.2.3.4" 2 }
        10 "1.2.3.4" (some []) "" [] (fun _ => false) none "dev"
        "c").2.failedRequests "1.2.3.4" = 1 ∧
    ¬((handleDeploy
        { NewRateLimiter 1 60 2 3600 600 with
            bannedUntil := upd (fun _ => none) "1.2.3.4" (some 5)
            failedRequests := upd (fun _ => 0) "1.2.3.4" 2 }
        10 "1.2.3.4" (some []) "" [] (fun _ => false) none "dev"
        "c").2.failedRequests "1.2.3.4" =
      ({ NewRateLimiter 1 60 2 3600 600 with
            bannedUntil := upd (fun _ => none) "1.2.3.4" (some 5)
            failedRequests := upd (fun _ => 0) "1.2.3.4" 2 } :
        RateLimiter).failedRequests "1.2.3.4" + 1) := by
  refine ⟨by decide, by decide, by decide⟩

/-- C1, amended: provided the identity has no expired ban record pending at
the request (its ban record, if any, has not yet expired), a rejection at
the ban check or at the success-rate check leaves the identity's failure
counter unchanged, and a rejection at signature verification, envelope
decode, timestamp parse, replay check, or compatibility check increments it
by exactly one. -/
theorem pipeline_failure_increment (rl : RateLimiter) (now : Int) (ip : String)
    (body : Option (List Nat)) (signature : String) (secret : List Nat)
    (allowedAlgorithms : String → Bool) (decoded : Option Envelope)
    (serverVersion serverCommit : String)
    (hban : ∀ b, rl.bannedUntil ip = some b → now < b) :
    ((handleDeploy rl now ip body signature secret allowedAlgorithms decoded
        serverVersion serverCommit).1 = Outcome.forbidden →
      (handleDeploy rl now ip body signature secret allowedAlgorithms decoded
        serverVersion serverCommit).2.failedRequests ip = rl.failedRequests ip) ∧
    ((handleDeploy rl now ip body signature secret allowedAlgorithms decoded
        serverVersion serverCommit).1 = Outcome.rateLimited →
      (handleDeploy rl now ip body signature secret allowedAlgorithms decoded
        serverVersion serverCommit).2.failedRequests ip = rl.failedRequests ip) ∧
    (∀ o, o = Outcome.unauthorized ∨ o = Outcome.badEnvelope ∨
        o = Outcome.badTimestamp ∨ o = Outcome.replayRejected ∨
        o = Outcome.versionMismatch →
      (handleDeploy rl now ip body signature secret allowedAlgorithms decoded
        serverVersion serverCommit).1 = o →
      (handleDeploy rl now ip body signature secret allowedAlgorithms decoded
        serverVersion serverCommit).2.failedRequests ip = rl.failedRequests ip + 1) := by
  have hIB : IsBanned rl now ip = (true, rl) ∨ IsBanned rl now ip = (false, rl) := by
    cases hb : rl.bannedUntil ip with
    | none => exact Or.inr (IsBanned_none rl now ip hb)
    | some b => exact Or.inl (IsBanned_active rl now ip b hb (hban b hb))
  rcases hIB with hib | hib
  · refine ⟨fun _ => ?_, fun hco => ?_, fun o ho hco => ?_⟩
    · simp [handleDeploy, hib]
    · simp [handleDeploy, hib] at hco
    · simp [handleDeploy, hib] at hco
      subst hco
      rcases ho with h | h | h | h | h <;> exact absurd h (by decide)
  · cases body with
    | none =>
      refine ⟨fun hco => ?_, fun hco => ?_, fun o ho hco => ?_⟩
      · simp [handleDeploy, hib] at hco
      · simp [handleDeploy, hib] at hco
      · simp [handleDeploy, hib] at hco
        subst hco
        rcases ho with h | h | h | h | h <;> exact absurd h (by decide)
    | some bodyBytes =>
      by_cases hv : VerifySignature bodyBytes signature secret allowedAlgorithms = true
      · cases decoded with
        | none =>
          refine ⟨fun hco => ?_, fun hco => ?_, fun o ho hco => ?_⟩
          · simp [handleDeploy, hib, hv] at hco
          · simp [handleDeploy, hib, hv] at hco
          · simp only [handleDeploy, hib, hv, Bool.not_true, Bool.false_eq_true,
              if_false]
            exact RecordFailure_failed rl now ip
        | some envelope =>
          cases hts : goAtoi envelope.timestamp with
          | none =>
            refine ⟨fun hco => ?_, fun hco => ?_, fun o ho hco => ?_⟩
            · simp [handleDeploy, hib, hv, hts] at hco
            · simp [handleDeploy, hib, hv, hts] at hco
            · simp only [handleDeploy, hib, hv, hts, Bool.not_true,
                Bool.false_eq_true, if_false]
              exact RecordFailure_failed rl now ip
          | some timestamp =>
            by_cases hr : (CheckReplay rl now timestamp).1 = true
            · by_cases hc : IsVersionCompatible envelope.version serverVersion
                  envelope.commit serverCommit = true
              · by_cases hs : (RecordSuccess (CheckReplay rl now timestamp).2 now ip).1
                    = true
                · refine ⟨fun hco => ?_, fun hco => ?_, fun o ho hco => ?_⟩
                  · simp [handleDeploy, hib, hv, hts, hr, hc, hs] at hco
                  · simp [handleDeploy, hib, hv, hts, hr, hc, hs] at hco
                  · simp [handleDeploy, hib, hv, hts, hr, hc, hs] at hco
                    subst hco
                    rcases ho with h | h | h | h | h <;> exact absurd h (by decide)
                · rw [Bool.not_eq_true] at hs
                  refine ⟨fun hco => ?_, fun hco => ?_, fun o ho hco => ?_⟩
                  · simp [handleDeploy, hib, hv, hts, hr, hc, hs] at hco
                  · simp only [handleDeploy, hib, hv, hts, hr, hc, hs,
                      Bool.not_true, Bool.not_false, Bool.false_eq_true, if_false,
                      if_true]
                    rw [RecordSuccess_false_state _ _ _ hs,
                      CheckReplay_failedRequests]
                  · simp [handleDeploy, hib, hv, hts, hr, hc, hs] at hco
                    subst hco
                    rcases ho with h | h | h | h | h <;> exact absurd h (by decide)
              · rw [Bool.not_eq_true] at hc
                refine ⟨fun hco => ?_, fun hco => ?_, fun o ho hco => ?_⟩
                · simp [handleDeploy, hib, hv, hts, hr, hc] at hco
                · simp [handleDeploy, hib, hv, hts, hr, hc] at hco
                · simp only [handleDeploy, hib, hv, hts, hr, hc, Bool.not_true,
                    Bool.not_false, Bool.false_eq_true, if_false, if_true]
                  rw [RecordFailure_failed, CheckReplay_failedRequests]
            · rw [Bool.not_eq_true] at hr
              refine ⟨fun hco => ?_, fun hco => ?_, fun o ho hco => ?_⟩
              · simp [handleDeploy, hib, hv, hts, hr] at hco
              · simp [handleDeploy, hib, hv, hts, hr] at hco
              · simp only [handleDeploy, hib, hv, hts, hr, Bool.not_true,
                  Bool.not_false, Bool.false_eq_true, if_false, if_true]
                rw [RecordFailure_failed, CheckReplay_failedRequests]
      · rw [Bool.not_eq_true] at hv
        refine ⟨fun hco => ?_, fun hco => ?_, fun o ho hco => ?_⟩
        · simp [handleDeploy, hib, hv] at hco
        · simp [handleDeploy, hib, hv] at hco
        · simp only [handleDeploy, hib, hv, Bool.not_false, if_true]
          exact RecordFailure_failed rl now ip

theorem pipeline_failure_increment_witness :
    (handleDeploy (NewRateLimiter 1 60 2 3600 600) 0 "a" (some []) "" []
        (fun _ => false) none "dev" "c").1 = Outcome.unauthorized ∧
    (handleDeploy (NewRateLimiter 1 60 2 3600 600) 0 "a" (some []) "" []
        (fun _ => false) none "dev" "c").2.failedRequests "a" =
      (NewRateLimiter 1 60 2 3600 600).failedRequests "a" + 1 := by
  refine ⟨by decide, ?_⟩
  exact (pipeline_failure_increment (NewRateLimiter 1 60 2 3600 600) 0 "a"
      (some []) "" [] (fun _ => false) none "dev" "c"
      (fun b hb => by simp [NewRateLimiter] at hb)).2.2
    Outcome.unauthorized (Or.inl rfl) (by decide)

theorem utf8DecodeOne_length (b : Nat) (rest : List Nat) :
    (utf8DecodeOne b rest).2.length ≤ rest.length := by
  rcases rest with _ | ⟨b1, _ | ⟨b2, _ | ⟨b3, rest3⟩⟩⟩ <;>
    · simp only [utf8DecodeOne]
      split_ifs <;> simp <;> omega

theorem utf8DecodeAux_congr : ∀ (f1 f2 : Nat) (l : List Nat),
    l.length ≤ f1 → l.length ≤ f2 → utf8DecodeAux f1 l = utf8DecodeAux f2 l := by
  intro f1
  induction f1 with
  | zero =>
    intro f2 l h1 h2
    have hl : l = [] := List.length_eq_zero.mp (Nat.le_zero.mp h1)
    subst hl
    cases f2 <;> rfl
  | succ f1 ih =>
    intro f2 l h1 h2
    cases l with
    | nil => cases f2 <;> rfl
    | cons b rest =>
      cases f2 with
      | zero => simp at h2
      | succ f2 =>
        simp only [utf8DecodeAux]
        congr 1
        apply ih
        · exact le_trans (utf8DecodeOne_length b rest)
            (by simp only [List.length_cons] at h1; omega)
        · exact le_trans (utf8DecodeOne_length b rest)
            (by simp only [List.length_cons] at h2; omega)

theorem utf8DecodeOne_enc1 (c : Nat) (h1 : c < 0x80) (tail : List Nat) :
    utf8DecodeOne c tail = (c, tail) := by
  simp [utf8DecodeOne, h1]

theorem utf8DecodeOne_enc2 (c : Nat) (hlo : 0x80 ≤ c) (hhi : c < 0x800)
    (tail : List Nat) :
    utf8DecodeOne (0xC0 + c / 64) ((0x80 + c % 64) :: tail) = (c, tail) := by
  simp only [utf8DecodeOne]
  rw [if_neg (by omega), if_neg (by omega), if_pos (by omega), if_pos (by omega)]
  have hv : (0xC0 + c / 64 - 0xC0) * 64 + (0x80 + c % 64 - 0x80) = c := by omega
  rw [hv]

theorem utf8DecodeOne_enc3 (c : Nat) (hlo : 0x800 ≤ c) (hhi : c < 0x10000)
    (hs : IsScalar c) (tail : List Nat) :
    utf8DecodeOne (0xE0 + c / 4096) ((0x80 + c / 64 % 64) :: (0x80 + c % 64) :: tail)
      = (c, tail) := by
  unfold IsScalar at hs
  simp only [utf8DecodeOne]
  rw [if_neg (by omega), if_neg (by omega), if_neg (by omega), if_pos (by omega)]
  rw [if_pos ?cond3]
  case cond3 =>
    refine ⟨?_, by omega, by omega⟩
    split_ifs <;> omega
  have hv : (0xE0 + c / 4096 - 0xE0) * 4096 + (0x80 + c / 64 % 64 - 0x80) * 64
      + (0x80 + c % 64 - 0x80) = c := by omega
  rw [hv]

theorem utf8DecodeOne_enc4 (c : Nat) (hlo : 0x10000 ≤ c) (hhi : c < 0x110000)
    (tail : List Nat) :
    utf8DecodeOne (0xF0 + c / 262144)
      ((0x80 + c / 4096 % 64) :: (0x80 + c / 64 % 64) :: (0x80 + c % 64) :: tail)
      = (c, tail) := by
  simp only [utf8DecodeOne]
  rw [if_neg (by omega), if_neg (by omega), if_neg (by omega), if_neg (by omega),
    if_pos (by omega)]
  rw [if_pos ?cond4]
  case cond4 =>
    refine ⟨?_, by omega, by omega, by omega, by omega⟩
    split_ifs <;> omega
  have hv : (0xF0 + c / 262144 - 0xF0) * 262144 + (0x80 + c / 4096 % 64 - 0x80) * 4096
      + (0x80 + c / 64 % 64 - 0x80) * 64 + (0x80 + c % 64 - 0x80) = c := by omega
  rw [hv]

theorem utf8Decode_encodeChar (c : Nat) (rest : List Nat) (h : IsScalar c) :
    utf8Decode (utf8EncodeChar c ++ rest) = c :: utf8Decode rest := by
  have hscalar := h
  unfold IsScalar at h
  by_cases h1 : c < 0x80
  · simp only [utf8Decode, utf8EncodeChar, if_pos h1, List.cons_append,
      List.nil_append, List.length_cons, utf8DecodeAux, utf8DecodeOne_enc1 c h1]
  · by_cases h2 : c < 0x800
    · simp only [utf8Decode, utf8EncodeChar, if_neg h1, if_pos h2, List.cons_append,
        List.nil_append, List.length_cons, utf8DecodeAux,
        utf8DecodeOne_enc2 c (by omega) h2]
      first
      | exact utf8DecodeAux_congr _ _ rest (by omega) le_rfl
      | exact congrArg (List.cons c) (utf8DecodeAux_congr _ _ rest (by omega) le_rfl)
    · by_cases h3 : c < 0x10000
      · simp only [utf8Decode, utf8EncodeChar, if_neg h1, if_neg h2, if_pos h3,
          List.cons_append, List.nil_append, List.length_cons, utf8DecodeAux,
          utf8DecodeOne_enc3 c (by omega) h3 hscalar]
        first
      | exact utf8DecodeAux_congr _ _ rest (by omega) le_rfl
      | exact congrArg (List.cons c) (utf8DecodeAux_congr _ _ rest (by omega) le_rfl)
      · simp only [utf8Decode, utf8EncodeChar, if_neg h1, if_neg h2, if_neg h3,
          List.cons_append, List.nil_append, List.length_cons, utf8DecodeAux,
          utf8DecodeOne_enc4 c (by omega) (by omega)]
        first
      | exact utf8DecodeAux_congr _ _ rest (by omega) le_rfl
      | exact congrArg (List.cons c) (utf8DecodeAux_congr _ _ rest (by omega) le_rfl)

theorem utf8Decode_encode (cs : List Nat) (h : ∀ c ∈ cs, IsScalar c) :
    utf8Decode (utf8Encode cs) = cs := by
  induction cs with
  | nil => rfl
  | cons c rest ih =>
    simp only [utf8Encode, List.map_cons, List.flatten_cons]
    rw [utf8Decode_encodeChar c _ (h c (List.mem_cons_self _ _))]
    rw [show (List.map utf8EncodeChar rest).flatten = utf8Encode rest from rfl]
    rw [ih (fun x hx => h x (List.mem_cons_of_mem c hx))]

/-- C10: any well-formed UTF-8 input (the encoding of a scalar sequence) that
contains a literal U+FFFD code point is rejected by `IsPrintableUTF8`: an
encoded replacement character is indistinguishable from a decoding error. -/
theorem printable_rejects_encoded_replacement (cs : List Nat)
    (hval : ∀ c ∈ cs, IsScalar c) (hmem : 0xFFFD ∈ cs) :
    IsPrintableUTF8 (utf8Encode cs) = false := by
  unfold IsPrintableUTF8
  rw [utf8Decode_encode cs hval]
  exact List.all_eq_false.mpr ⟨0xFFFD, hmem, by decide⟩

theorem printable_rejects_encoded_replacement_witness :
    IsPrintableUTF8 (utf8Encode [0xFFFD]) = false :=
  printable_rejects_encoded_replacement [0xFFFD] (by decide) (by decide)
